import Mathlib

/-! Verification of the voiceTypeless core (crates/core) against its
natural-language specification.  Rust strings are modelled over their
character lists (valid UTF-8 substring matches always fall on character
boundaries, so `str::replace` is char-exact); machine integers as `Nat`;
IEEE f32/f64 arithmetic, where the rounding matters, as exact rational
arithmetic composed with an explicit round-to-nearest-even rounding of the
significand. -/

namespace VoiceTypeless


/-! ## domain/types.rs -/

/-- Transcription / rewrite mode (domain/types.rs `Mode`). -/
inductive Mode
  | raw | memo | tech | emailJp | minutes
  deriving DecidableEq, Repr

/-- Dictionary entry scope (domain/types.rs `DictionaryScope`). -/
inductive DictionaryScope
  | global | mode
  deriving DecidableEq, Repr

/-- Dictionary entry (domain/types.rs `DictionaryEntry`). -/
structure DictionaryEntry where
  id : Option String
  scope : DictionaryScope
  mode : Option Mode
  pattern : String
  replacement : String
  priority : Int
  enabled : Bool
  deriving DecidableEq, Repr

/-! ## infra/post_processor.rs -/

/-- Boolean test that `p` is a prefix of the second list (the matching
primitive behind Rust's `str::replace` match search). -/
def listStartsWith : List Char → List Char → Bool
  | [], _ => true
  | _ :: _, [] => false
  | a :: as, b :: bs => a == b && listStartsWith as bs

/-- Replacement of leftmost, non-overlapping occurrences of a non-empty
pattern `p` by `r`, as Rust's `str::replace` does.  Fuel-structured so it
reduces definitionally; callers pass fuel ≥ length of the subject (each
step consumes at least one character when `p ≠ []`). -/
def replaceGo (p r : List Char) : Nat → List Char → List Char
  | 0, s => s
  | Nat.succ _, [] => []
  | Nat.succ n, c :: cs =>
    if listStartsWith p (c :: cs) then r ++ replaceGo p r n ((c :: cs).drop p.length)
    else c :: replaceGo p r n cs

/-- Rust `str::replace(pattern, replacement)`.  An empty pattern matches at
every character boundary including both ends, as in Rust. -/
def rustReplace (s p r : String) : String :=
  if p.data = [] then
    String.mk (r.data ++ (s.data.map (fun c => c :: r.data)).flatten)
  else
    String.mk (replaceGo p.data r.data s.data.length s.data)

/-- `PostProcessor::apply_dictionary`: fold the entries in delivered order
over the working string; disabled entries are skipped. -/
def applyDictionary (text : String) (entries : List DictionaryEntry) : String :=
  entries.foldl
    (fun result e => if e.enabled then rustReplace result e.pattern e.replacement else result)
    text

/-- Per-character step of `PostProcessor::normalize`: full-width ASCII
U+FF01..U+FF5E shifts down by 0xFEE0, ideographic space U+3000 becomes a
plain space, everything else is kept. -/
def normalizeChar (c : Char) : Char :=
  if 0xFF01 ≤ c.toNat ∧ c.toNat ≤ 0xFF5E then Char.ofNat (c.toNat - 0xFEE0)
  else if c.toNat = 0x3000 then ' '
  else c

/-- `compress_whitespace`: collapse runs of space/tab to a single space,
keeping every other character (newlines survive).  The boolean is the
`prev_space` flag of the Rust loop. -/
def compressWs : Bool → List Char → List Char
  | _, [] => []
  | prevSpace, c :: cs =>
    if c = ' ' ∨ c = '\t' then
      (if prevSpace then compressWs true cs else ' ' :: compressWs true cs)
    else c :: compressWs false cs

/-- Code points with the Unicode White_Space property, the set trimmed by
Rust's `str::trim`. -/
def rustWhitespaceCodes : List Nat :=
  [0x09, 0x0A, 0x0B, 0x0C, 0x0D, 0x20, 0x85, 0xA0, 0x1680,
   0x2000, 0x2001, 0x2002, 0x2003, 0x2004, 0x2005, 0x2006, 0x2007,
   0x2008, 0x2009, 0x200A, 0x2028, 0x2029, 0x202F, 0x205F, 0x3000]

/-- Rust `char::is_whitespace`. -/
def rustIsWhitespace (c : Char) : Bool :=
  rustWhitespaceCodes.contains c.toNat

/-- Rust `str::trim`: strip leading and trailing whitespace. -/
def rustTrim (l : List Char) : List Char :=
  ((l.dropWhile rustIsWhitespace).reverse.dropWhile rustIsWhitespace).reverse

/-- `PostProcessor::normalize`: width mapping, whitespace compression,
trim. -/
def normalize (text : String) : String :=
  String.mk (rustTrim (compressWs false (text.data.map normalizeChar)))

/-- `PostProcessor::process`: normalize then apply the dictionary. -/
def process (text : String) (entries : List DictionaryEntry) : String :=
  applyDictionary (normalize text) entries

/-! ### Claim C5 -/

/-- First sample entry of scenario S5. -/
def entryABC : DictionaryEntry :=
  ⟨some "1", DictionaryScope.global, none, "ABC", "XYZ", 10, true⟩

/-- Second sample entry of scenario S5. -/
def entryXYZ : DictionaryEntry :=
  ⟨some "2", DictionaryScope.global, none, "XYZ", "123", 5, true⟩

/-! ### Claim C6 -/

/-- Counterexample dictionary for C6: the single enabled entry rewrites
"ab" to "c  d" (two inner spaces).  Its pattern and replacement share no
characters at all, so any reading of "pairwise non-overlapping" is
satisfied. -/
def entryAB : DictionaryEntry :=
  ⟨some "e", DictionaryScope.global, none, "ab", "c  d", 10, true⟩

/-! ## domain/job.rs and usecase/job_queue.rs -/

/-- Job status (domain/job.rs `JobStatus`). -/
inductive JobStatus
  | queued | running | done | failed | canceled
  deriving DecidableEq, Repr

/-- Job kind (domain/job.rs `JobKind`). -/
inductive JobKind
  | transcribe | rewrite | deliver
  deriving DecidableEq, Repr

/-- Job metadata (domain/job.rs `JobInfo`). -/
structure JobInfo where
  job_id : String
  session_id : String
  segment_id : Option String
  kind : JobKind
  status : JobStatus
  created_at : String
  error : Option String
  deriving DecidableEq, Repr

/-- `JobInfo::new`: a freshly enqueued job is `Queued` with no error. -/
def JobInfo.new (job_id session_id : String) (segment_id : Option String)
    (kind : JobKind) (now : String) : JobInfo :=
  ⟨job_id, session_id, segment_id, kind, JobStatus.queued, now, none⟩

/-- Map entry of the job queue (job_queue.rs `JobEntry`).  The one-shot
cancel sender and the task join handle are modelled by whether they are
still present (`Option::take` clears them). -/
structure JobEntry where
  info : JobInfo
  cancel_tx : Bool
  handle : Bool
  deriving DecidableEq, Repr

/-- The `HashMap<String, JobEntry>` behind the queue, as an association
list; job ids are fresh UUIDs supplied by the environment, so keys are
distinct by construction. -/
abbrev JobMap := List (String × JobEntry)

/-- `jobs.get(job_id)`. -/
def jqLookup : JobMap → String → Option JobEntry
  | [], _ => none
  | (k, v) :: rest, id => if k = id then some v else jqLookup rest id

/-- `jobs.get_mut(job_id)` followed by a field update: rewrite the entry
stored under the key, leave everything else alone. -/
def jqModify (jobs : JobMap) (id : String) (f : JobEntry → JobEntry) : JobMap :=
  jobs.map (fun kv => if kv.1 = id then (kv.1, f kv.2) else kv)

/-- `JobQueue::enqueue` (the fresh `job_id` and timestamp come from the
environment): insert a queued entry holding the cancel sender. -/
def jqEnqueue (jobs : JobMap) (job_id session_id : String) (segment_id : Option String)
    (kind : JobKind) (now : String) : JobMap :=
  (job_id, ⟨JobInfo.new job_id session_id segment_id kind now, true, false⟩) :: jobs

/-- `JobQueue::mark_running`: unconditionally sets `Running` if the job
exists. -/
def jqMarkRunning (jobs : JobMap) (id : String) : JobMap :=
  jqModify jobs id (fun e => { e with info := { e.info with status := JobStatus.running } })

/-- `JobQueue::mark_done`: unconditionally sets `Done`, dropping the cancel
sender and the handle. -/
def jqMarkDone (jobs : JobMap) (id : String) : JobMap :=
  jqModify jobs id (fun e =>
    { e with info := { e.info with status := JobStatus.done },
             cancel_tx := false, handle := false })

/-- `JobQueue::mark_failed`: unconditionally sets `Failed` with the error
string, dropping the cancel sender and the handle. -/
def jqMarkFailed (jobs : JobMap) (id : String) (err : String) : JobMap :=
  jqModify jobs id (fun e =>
    { e with info := { e.info with status := JobStatus.failed, error := some err },
             cancel_tx := false, handle := false })

/-- `JobQueue::cancel`: only a `Queued` or `Running` job is cancelled (the
sender fires and the handle is aborted, both modelled by clearing them);
any other job, or a missing id, returns `false` and changes nothing. -/
def jqCancel (jobs : JobMap) (id : String) : Bool × JobMap :=
  match jqLookup jobs id with
  | some e =>
    if e.info.status = JobStatus.queued ∨ e.info.status = JobStatus.running then
      (true, jqModify jobs id (fun e =>
        { e with info := { e.info with status := JobStatus.canceled },
                 cancel_tx := false, handle := false }))
    else (false, jobs)
  | none => (false, jobs)

/-- Terminal job statuses per the spec: done, failed, canceled. -/
def JobStatus.isTerminal : JobStatus → Bool
  | JobStatus.done | JobStatus.failed | JobStatus.canceled => true
  | _ => false

/-! ### Claim C1 -/

/-- A queued sample job used to exercise the queue. -/
def jobsC1 : JobMap :=
  [("j", ⟨JobInfo.new "j" "s1" none JobKind.transcribe "t0", true, false⟩)]

/-- A sample map whose only job is already `Done` (terminal). -/
def doneEntry : JobEntry :=
  ⟨⟨"j", "s1", none, JobKind.transcribe, JobStatus.done, "t0", none⟩, false, false⟩

/-- A job map holding only the terminal sample job. -/
def jobsC1done : JobMap := [("j", doneEntry)]

/-! ## domain/session.rs -/

/-- Session state (domain/session.rs `SessionState`). -/
inductive SessionState
  | idle | recording | transcribing | rewriting | delivering
  | error (code : String) (message : String) (recoverable : Bool)
  deriving DecidableEq, Repr

/-- `SessionState::as_str`. -/
def SessionState.asStr : SessionState → String
  | SessionState.idle => "idle"
  | SessionState.recording => "recording"
  | SessionState.transcribing => "transcribing"
  | SessionState.rewriting => "rewriting"
  | SessionState.delivering => "delivering"
  | SessionState.error _ _ _ => "error"

/-- Delivery policy (domain/types.rs `DeliverPolicy`, clipboard only). -/
inductive DeliverPolicy
  | clipboard
  deriving DecidableEq, Repr

/-- A session (domain/session.rs `Session`). -/
structure Session where
  session_id : String
  state : SessionState
  mode : Mode
  deliver_policy : DeliverPolicy
  created_at : String
  updated_at : String
  deriving DecidableEq, Repr

/-- Successful transition payload (domain/session.rs `StateTransition`). -/
structure StateTransition where
  session_id : String
  prev_state : String
  new_state : SessionState
  deriving DecidableEq, Repr

/-- Error codes (domain/error.rs `ErrorCode`). -/
inductive ErrorCode
  | permission | device | timeout | sttUnavailable | invalidState | internal | storage | rewrite
  deriving DecidableEq, Repr

/-- Application error (domain/error.rs `AppError`). -/
structure AppError where
  code : ErrorCode
  message : String
  recoverable : Bool
  deriving DecidableEq, Repr

/-- `AppError::invalid_state`. -/
def AppError.mkInvalidState (msg : String) : AppError :=
  ⟨ErrorCode.invalidState, msg, true⟩

/-- `AppError::internal`. -/
def AppError.mkInternal (msg : String) : AppError :=
  ⟨ErrorCode.internal, msg, false⟩

/-- The `SessionManager` holds at most one active session; each mutator
receives the wall-clock string `now` from its caller (app_service passes
`chrono::Utc::now().to_rfc3339()`; the repository's own unit tests pass a
fixed literal). -/
abbrev SessionManager := Option Session

/-- Shared success path of every transition: record the previous state
string, set the new state, stamp `updated_at` with the supplied `now`. -/
def sessionStep (s : Session) (new : SessionState) (now : String) :
    StateTransition × SessionManager :=
  let s2 := { s with state := new, updated_at := now }
  (⟨s.session_id, s.state.asStr, s2.state⟩, some s2)

/-- `SessionManager::toggle_recording`: Idle→Recording,
Recording→Transcribing, otherwise `InvalidState`. -/
def toggleRecording (active : SessionManager) (now : String) :
    Except AppError (StateTransition × SessionManager) :=
  match active with
  | none => Except.error (AppError.mkInternal "アクティブセッションがありません")
  | some s =>
    match s.state with
    | SessionState.idle => Except.ok (sessionStep s SessionState.recording now)
    | SessionState.recording => Except.ok (sessionStep s SessionState.transcribing now)
    | other =>
      Except.error (AppError.mkInvalidState
        ("toggle_recording は " ++ other.asStr ++ " 状態では実行できません"))

/-- `SessionManager::pause_recording`: Recording→Idle. -/
def pauseRecording (active : SessionManager) (now : String) :
    Except AppError (StateTransition × SessionManager) :=
  match active with
  | none => Except.error (AppError.mkInternal "アクティブセッションがありません")
  | some s =>
    match s.state with
    | SessionState.recording => Except.ok (sessionStep s SessionState.idle now)
    | other =>
      Except.error (AppError.mkInvalidState
        ("pause_recording は " ++ other.asStr ++ " 状態では実行できません"))

/-- `SessionManager::on_transcript_done`: Transcribing→Delivering when the
mode is raw, otherwise Transcribing→Rewriting. -/
def onTranscriptDone (active : SessionManager) (now : String) :
    Except AppError (StateTransition × SessionManager) :=
  match active with
  | none => Except.error (AppError.mkInternal "アクティブセッションがありません")
  | some s =>
    match s.state with
    | SessionState.transcribing =>
      if s.mode = Mode.raw then Except.ok (sessionStep s SessionState.delivering now)
      else Except.ok (sessionStep s SessionState.rewriting now)
    | other =>
      Except.error (AppError.mkInvalidState
        ("on_transcript_done は " ++ other.asStr ++ " 状態では実行できません"))

/-- `SessionManager::on_rewrite_done`: Rewriting→Delivering. -/
def onRewriteDone (active : SessionManager) (now : String) :
    Except AppError (StateTransition × SessionManager) :=
  match active with
  | none => Except.error (AppError.mkInternal "アクティブセッションがありません")
  | some s =>
    match s.state with
    | SessionState.rewriting => Except.ok (sessionStep s SessionState.delivering now)
    | other =>
      Except.error (AppError.mkInvalidState
        ("on_rewrite_done は " ++ other.asStr ++ " 状態では実行できません"))

/-- `SessionManager::on_deliver_done`: Delivering→Idle. -/
def onDeliverDone (active : SessionManager) (now : String) :
    Except AppError (StateTransition × SessionManager) :=
  match active with
  | none => Except.error (AppError.mkInternal "アクティブセッションがありません")
  | some s =>
    match s.state with
    | SessionState.delivering => Except.ok (sessionStep s SessionState.idle now)
    | other =>
      Except.error (AppError.mkInvalidState
        ("on_deliver_done は " ++ other.asStr ++ " 状態では実行できません"))

/-- `SessionManager::recover_from_error`: a recoverable Error→Idle; a
non-recoverable Error fails with `InvalidState`, as does any other state. -/
def recoverFromError (active : SessionManager) (now : String) :
    Except AppError (StateTransition × SessionManager) :=
  match active with
  | none => Except.error (AppError.mkInternal "アクティブセッションがありません")
  | some s =>
    match s.state with
    | SessionState.error _ _ true => Except.ok (sessionStep s SessionState.idle now)
    | SessionState.error _ _ false => Except.error (AppError.mkInvalidState "回復不可能なエラーです")
    | other =>
      Except.error (AppError.mkInvalidState
        ("recover_from_error は " ++ other.asStr ++ " 状態では実行できません"))

/-- The six mutators named by the claim, as one indexed operation. -/
inductive SessionOp
  | toggle | pause | transcriptDone | rewriteDone | deliverDone | recover
  deriving DecidableEq, Repr

/-- Dispatch a `SessionOp` to its transition function. -/
def applySessionOp (op : SessionOp) (active : SessionManager) (now : String) :
    Except AppError (StateTransition × SessionManager) :=
  match op with
  | SessionOp.toggle => toggleRecording active now
  | SessionOp.pause => pauseRecording active now
  | SessionOp.transcriptDone => onTranscriptDone active now
  | SessionOp.rewriteDone => onRewriteDone active now
  | SessionOp.deliverDone => onDeliverDone active now
  | SessionOp.recover => recoverFromError active now

/-! ### Claim C8 -/

/-- A sample active session sitting at the fixed test timestamp. -/
def sessionC8 : Session :=
  ⟨"s1", SessionState.idle, Mode.memo, DeliverPolicy.clipboard,
   "2025-01-15T10:30:00Z", "2025-01-15T10:30:00Z"⟩

/-- The sample session after toggling with the same timestamp. -/
def sessionC8same : Session :=
  ⟨"s1", SessionState.recording, Mode.memo, DeliverPolicy.clipboard,
   "2025-01-15T10:30:00Z", "2025-01-15T10:30:00Z"⟩

/-- The sample session after toggling with a one-second-later timestamp. -/
def sessionC8later : Session :=
  ⟨"s1", SessionState.recording, Mode.memo, DeliverPolicy.clipboard,
   "2025-01-15T10:30:00Z", "2025-01-15T10:30:01Z"⟩

/-! ## infra/os_integration.rs -/

/-- Paste decision outcome (os_integration.rs `PasteResult`). -/
inductive PasteResult
  | pasted (app_bundle_id : String)
  | needsConfirmation (app_bundle_id : String) (text : String)
  | fallbackClipboard (reason : String)
  deriving DecidableEq, Repr

/-- `PasteRouter::paste_if_allowlisted`; the active-app bundle id produced
by `OsIntegration::get_active_app_bundle_id` is passed in explicitly. -/
def pasteIfAllowlisted (activeBundleId : Option String) (text : String)
    (allowlist : List String) (requireConfirm : Bool) : PasteResult :=
  match activeBundleId with
  | none => PasteResult.fallbackClipboard "アクティブアプリを識別できません"
  | some bid =>
    if allowlist.isEmpty || !(allowlist.any (fun a => a == bid)) then
      PasteResult.fallbackClipboard (bid ++ " はallowlistに含まれていません")
    else if requireConfirm then
      PasteResult.needsConfirmation bid text
    else
      PasteResult.pasted bid

/-! ## infra/storage/repository.rs — `list_history` -/

/-- A row of the `sessions` table. -/
structure SessionRow where
  session_id : String
  state : String
  mode : String
  created_at : String
  updated_at : String
  deriving DecidableEq, Repr

/-- A row of the `segments` table (the columns `list_history` touches). -/
structure SegmentRow where
  segment_id : String
  session_id : String
  created_at : String
  deriving DecidableEq, Repr

/-- Session summary (domain/types.rs `SessionSummary`). -/
structure SessionSummary where
  session_id : String
  state : String
  mode : Mode
  created_at : String
  updated_at : String
  segment_count : Nat
  deriving DecidableEq, Repr

/-- History page (domain/types.rs `HistoryPage`). -/
structure HistoryPage where
  items : List SessionSummary
  next_cursor : Option String
  deriving DecidableEq, Repr

/-- `parse_mode` (repository.rs): unknown strings fall back to raw. -/
def parseMode (s : String) : Mode :=
  match s with
  | "raw" => Mode.raw
  | "memo" => Mode.memo
  | "tech" => Mode.tech
  | "email_jp" => Mode.emailJp
  | "minutes" => Mode.minutes
  | _ => Mode.raw

/-- The correlated subquery `SELECT COUNT(*) FROM segments WHERE
seg.session_id = s.session_id`. -/
def segCount (segments : List SegmentRow) (sid : String) : Nat :=
  (segments.filter (fun g => g.session_id == sid)).length

/-- Insertion step of the `ORDER BY created_at DESC` model (SQLite's byte
order on RFC-3339 TEXT equals the codepoint order on Lean strings). -/
def insertByDesc (r : SessionRow) : List SessionRow → List SessionRow
  | [] => [r]
  | x :: xs =>
    if decide (x.created_at ≤ r.created_at) then r :: x :: xs else x :: insertByDesc r xs

/-- `ORDER BY created_at DESC` (ties in an unspecified but fixed order, as
in SQLite). -/
def sortByCreatedDesc : List SessionRow → List SessionRow
  | [] => []
  | x :: xs => insertByDesc x (sortByCreatedDesc xs)

/-- The `WHERE s.created_at < ?1` cursor filter (absent cursor keeps every
row). -/
def cursorFiltered (sessions : List SessionRow) (cursor : Option String) : List SessionRow :=
  match cursor with
  | some c => sessions.filter (fun s => decide (s.created_at < c))
  | none => sessions

/-- `Storage::list_history`: fetch `limit + 1` rows ordered
`created_at DESC` under the cursor filter, keep the first `limit` as the
page, and set `next_cursor` to the last kept row's `created_at` iff an
extra row was fetched. -/
def listHistory (sessions : List SessionRow) (segments : List SegmentRow)
    (limit : Nat) (cursor : Option String) : HistoryPage :=
  let fetched := (sortByCreatedDesc (cursorFiltered sessions cursor)).take (limit + 1)
  let rows := fetched.map (fun s =>
    SessionSummary.mk s.session_id s.state (parseMode s.mode) s.created_at s.updated_at
      (segCount segments s.session_id))
  let hasNext := decide (limit < rows.length)
  let items := rows.take limit
  let nextCursor := if hasNext then items.getLast?.map (fun s => s.created_at) else none
  ⟨items, nextCursor⟩

/-! ### Claim C7 -/

/-- A sample session row. -/
def rowS1 : SessionRow :=
  ⟨"s1", "idle", "memo", "2025-01-15T10:30:00Z", "2025-01-15T10:30:00Z"⟩

/-- Another sample session row, created a minute later. -/
def rowS2 : SessionRow :=
  ⟨"s2", "idle", "memo", "2025-01-15T10:31:00Z", "2025-01-15T10:31:00Z"⟩

/-! ## Exact model of the IEEE-754 roundings used by the VAD

`vad.rs` computes the frame duration in f32 and the segment duration in
f64.  Both are modelled exactly: a positive value is kept as an unreduced
fraction of naturals, and each floating-point operation is the exact
operation followed by `roundRatPos`, a round-to-nearest, ties-to-even
rounding of the significand to 24 (f32) or 53 (f64) bits.  The magnitudes
that occur keep every intermediate value in the normal range, so neither
sub-normals nor overflow need modelling. -/

/-- Fuel-structured ⌊log₂ n⌋ (0 for n < 2) that reduces definitionally. -/
def natLog2Go : Nat → Nat → Nat
  | 0, _ => 0
  | Nat.succ fuel, n => if n < 2 then 0 else natLog2Go fuel (n / 2) + 1

/-- ⌊log₂ n⌋ for n ≥ 1. -/
def natLog2 (n : Nat) : Nat := natLog2Go n n

/-- Round a/b to the nearest integer, ties to even. -/
def roundDivNearestEven (a b : Nat) : Nat :=
  let q := a / b
  let r := a % b
  if 2 * r < b then q
  else if b < 2 * r then q + 1
  else if q % 2 = 0 then q else q + 1

/-- Round the positive rational a/b (a, b ≥ 1) to `prec` significant bits,
nearest, ties to even: the result is a dyadic `(m, e)` standing for
`m·2^e`.  The value is first scaled into `[2^(prec-1), 2^prec)` and its
scaled significand rounded to an integer. -/
def roundRatPos (prec : Nat) (a b : Nat) : Nat × Int :=
  let d : Int := (natLog2 a : Int) - (natLog2 b : Int)
  let s : Int := (prec : Int) - 1 - d
  let abig := if 0 ≤ s then a * 2 ^ s.toNat else a
  let bbig := if 0 ≤ s then b else b * 2 ^ (-s).toNat
  if abig < bbig * 2 ^ (prec - 1) then
    (roundDivNearestEven (abig * 2) bbig, -(s + 1))
  else if bbig * 2 ^ prec ≤ abig then
    (roundDivNearestEven abig (bbig * 2), -(s - 1))
  else
    (roundDivNearestEven abig bbig, -s)

/-- Write a dyadic back as an unreduced fraction of naturals. -/
def dyadicToFrac : Nat × Int → Nat × Nat
  | (m, e) => if 0 ≤ e then (m * 2 ^ e.toNat, 1) else (m, 2 ^ (-e).toNat)

/-- One floating-point rounding of the nonnegative fraction a/b to `prec`
bits; zero stays zero. -/
def roundFrac (prec : Nat) (a b : Nat) : Nat × Nat :=
  if a = 0 ∨ b = 0 then (0, 1)
  else dyadicToFrac (roundRatPos prec a b)

/-- `((samples.len() as f64 / sample_rate as f64) * 1000.0) as u32` from
`finalize_segment`: round n to f64, divide by the (f64-exact, since
sr < 2^32 < 2^53) sample rate with one rounding, multiply by the exact
1000.0 with one rounding, then truncate toward zero with Rust's saturating
float-to-int cast. -/
def f64DurationMs (n sr : Nat) : Nat :=
  let x1 := roundFrac 53 n 1
  let x2 := roundFrac 53 x1.1 (x1.2 * sr)
  let x3 := roundFrac 53 (x2.1 * 1000) x2.2
  min (x3.1 / x3.2) (2 ^ 32 - 1)

/-- `(frame_size as f32 / sample_rate as f32 * 1000.0) as u32` from
`VadProcessor::new` / `update_config`: both casts to f32 round, the
division and the multiplication by 1000.0 each round once, and the cast to
u32 truncates and saturates (a zero sample rate makes the quotient
infinite or NaN, saturating to u32::MAX or 0). -/
def f32FrameDurationMs (fs sr : Nat) : Nat :=
  if sr = 0 then (if fs = 0 then 0 else 2 ^ 32 - 1)
  else
    let a := roundFrac 24 fs 1
    let b := roundFrac 24 sr 1
    let c := roundFrac 24 (a.1 * b.2) (a.2 * b.1)
    let d := roundFrac 24 (c.1 * 1000) c.2
    min (d.1 / d.2) (2 ^ 32 - 1)

/-! ## infra/audio/vad.rs -/

/-- VAD configuration (vad.rs `VadConfig`).  The RMS thresholds are f32
values, embedded as the rationals they denote; `output_dir` (pure
filesystem configuration) is omitted. -/
structure VadConfig where
  speech_start_threshold : ℚ
  speech_end_threshold : ℚ
  speech_end_silence_ms : Nat
  max_segment_ms : Nat
  min_segment_ms : Nat
  min_speech_ms : Nat
  min_gap_ms : Nat
  sample_rate : Nat
  frame_size : Nat
  deriving DecidableEq, Repr

/-- VAD state (vad.rs `VadState`). -/
inductive VadState
  | silence | pendingSpeech | speaking | cooldown
  deriving DecidableEq, Repr

/-- An audio segment as carried by `SegmentReady` (domain/stt.rs
`AudioSegment`).  The environment-supplied fields — the fresh UUID, the
wall-clock `started_at`, and the WAV path (present on I/O success, `None`
on failure, with the same samples and duration either way) — are omitted;
`pcm_format` is the constant `F32Le`. -/
structure AudioSegment where
  duration_ms : Nat
  sample_rate : Nat
  channels : Nat
  samples : Option (List ℚ)
  language : Option String
  hints : List String
  deriving DecidableEq, Repr

/-- Events emitted by the VAD (vad.rs `VadEvent`). -/
inductive VadEvent
  | speechStart
  | segmentReady (segment : AudioSegment)
  | segmentDiscarded (duration_ms : Nat)
  | segmentForceCut
  deriving DecidableEq, Repr

/-- The VAD processor state (vad.rs `VadProcessor`).  `segment_started_at`
keeps only whether the wall-clock stamp is set. -/
structure VadProcessor where
  config : VadConfig
  state : VadState
  segment_samples : List ℚ
  segment_started_at : Option Unit
  silence_frame_count : Nat
  pending_frame_count : Nat
  cooldown_frame_count : Nat
  silence_frames_needed : Nat
  max_frames : Nat
  min_speech_frames : Nat
  min_gap_frames : Nat
  segment_frame_count : Nat
  language : Option String
  hints : List String
  pending_samples : List ℚ
  deriving DecidableEq, Repr

/-- `VadProcessor::new`: the per-frame duration is computed in f32,
clamped to at least 1 ms, and the four frame thresholds are the integer
divisions of the millisecond settings by it. -/
def vadNew (config : VadConfig) : VadProcessor :=
  let fd := max (f32FrameDurationMs config.frame_size config.sample_rate) 1
  { config := config
    state := VadState.silence
    segment_samples := []
    segment_started_at := none
    silence_frame_count := 0
    pending_frame_count := 0
    cooldown_frame_count := 0
    silence_frames_needed := config.speech_end_silence_ms / fd
    max_frames := config.max_segment_ms / fd
    min_speech_frames := config.min_speech_ms / fd
    min_gap_frames := config.min_gap_ms / fd
    segment_frame_count := 0
    language := none
    hints := []
    pending_samples := [] }

/-- `VadProcessor::finalize_segment`: take the buffered samples, reset the
segment counters, enter Cooldown iff `min_gap_frames > 0` (else Silence),
compute the duration in f64, and emit either `SegmentDiscarded` (too
short; buffers already reset) or one `SegmentReady` carrying the samples —
the WAV write failing only clears the omitted path field, it still emits
`SegmentReady`. -/
def finalizeSegment (p : VadProcessor) : List VadEvent × VadProcessor :=
  let samples := p.segment_samples
  let p1 := { p with
    segment_samples := []
    segment_started_at := none
    silence_frame_count := 0
    segment_frame_count := 0
    state := if 0 < p.min_gap_frames then VadState.cooldown else VadState.silence
    cooldown_frame_count := if 0 < p.min_gap_frames then 0 else p.cooldown_frame_count }
  let durationMs :=
    if 0 < p.config.sample_rate then f64DurationMs samples.length p.config.sample_rate else 0
  if durationMs < p.config.min_segment_ms then
    ([VadEvent.segmentDiscarded durationMs], p1)
  else
    ([VadEvent.segmentReady
        ⟨durationMs, p.config.sample_rate, 1, some samples, p.language, p.hints⟩], p1)

/-- `VadProcessor::process_frame`: one frame plus its RMS in, events out. -/
def processFrame (p : VadProcessor) (frame : List ℚ) (rms : ℚ) :
    List VadEvent × VadProcessor :=
  match p.state with
  | VadState.silence =>
    if p.config.speech_start_threshold ≤ rms then
      if p.min_speech_frames = 0 then
        ([VadEvent.speechStart],
         { p with state := VadState.speaking, segment_samples := frame,
                  segment_started_at := some (), silence_frame_count := 0,
                  segment_frame_count := 1 })
      else
        ([], { p with state := VadState.pendingSpeech, pending_samples := frame,
                      pending_frame_count := 1 })
    else ([], p)
  | VadState.pendingSpeech =>
    let pend := p.pending_samples ++ frame
    let pcount := p.pending_frame_count + 1
    if rms < p.config.speech_end_threshold then
      ([], { p with state := VadState.silence, pending_samples := [],
                    pending_frame_count := 0 })
    else if p.min_speech_frames ≤ pcount then
      ([VadEvent.speechStart],
       { p with state := VadState.speaking, segment_samples := pend, pending_samples := [],
                segment_started_at := some (), silence_frame_count := 0,
                segment_frame_count := pcount, pending_frame_count := 0 })
    else ([], { p with pending_samples := pend, pending_frame_count := pcount })
  | VadState.speaking =>
    let p1 := { p with segment_samples := p.segment_samples ++ frame,
                       segment_frame_count := p.segment_frame_count + 1 }
    let p2 := if rms < p.config.speech_end_threshold then
        { p1 with silence_frame_count := p1.silence_frame_count + 1 }
      else { p1 with silence_frame_count := 0 }
    if p2.max_frames ≤ p2.segment_frame_count then
      let fz := finalizeSegment p2
      (VadEvent.segmentForceCut :: fz.1, fz.2)
    else if p2.silence_frames_needed ≤ p2.silence_frame_count then
      finalizeSegment p2
    else ([], p2)
  | VadState.cooldown =>
    let ccount := p.cooldown_frame_count + 1
    if p.min_gap_frames ≤ ccount then
      ([], { p with state := VadState.silence, cooldown_frame_count := 0 })
    else ([], { p with cooldown_frame_count := ccount })

/-- `VadProcessor::flush`: finalize a non-empty Speaking buffer; promote a
non-empty pending buffer to Speaking and finalize it; otherwise a no-op. -/
def vadFlush (p : VadProcessor) : List VadEvent × VadProcessor :=
  match p.state with
  | VadState.speaking =>
    if p.segment_samples.isEmpty then ([], p) else finalizeSegment p
  | VadState.pendingSpeech =>
    if p.pending_samples.isEmpty then ([], p)
    else finalizeSegment { p with segment_samples := p.pending_samples, pending_samples := [],
                                  segment_started_at := some (), state := VadState.speaking }
  | _ => ([], p)

/-- `VadProcessor::reset`. -/
def vadReset (p : VadProcessor) : VadProcessor :=
  { p with state := VadState.silence, segment_samples := [], pending_samples := [],
           segment_started_at := none, silence_frame_count := 0, pending_frame_count := 0,
           cooldown_frame_count := 0, segment_frame_count := 0 }

/-- The public mutating operations the invariant claim ranges over. -/
inductive VadOp
  | frame (f : List ℚ) (rms : ℚ)
  | flush
  | reset

/-- Apply one operation, discarding the emitted events. -/
def applyVadOp (p : VadProcessor) : VadOp → VadProcessor
  | VadOp.frame f r => (processFrame p f r).2
  | VadOp.flush => (vadFlush p).2
  | VadOp.reset => vadReset p

/-- Run a sequence of operations. -/
def runVadOps (p : VadProcessor) : List VadOp → VadProcessor
  | [] => p
  | op :: ops => runVadOps (applyVadOp p op) ops

/-- Recognizer for `SegmentForceCut` events. -/
def isForceCut : VadEvent → Bool
  | VadEvent.segmentForceCut => true
  | _ => false

/-- Config with the default 20 ms frame (320 samples at 16 kHz) but
`min_speech_ms = 10`, smaller than one frame, so `min_speech_frames = 0`. -/
def cfgC2 : VadConfig := ⟨1, 0, 700, 30000, 500, 10, 300, 16000, 320⟩

/-- Default-like config whose `min_speech_ms = 100` spans 5 frames. -/
def cfgC2w : VadConfig := ⟨1, 0, 700, 30000, 500, 100, 300, 16000, 320⟩

/-- Config with one-frame segments (`max_segment_ms` = one 20 ms frame)
and `min_gap_ms = 10`, smaller than one frame, so `min_gap_frames = 0`. -/
def cfgC3 : VadConfig := ⟨1, 0, 700, 20, 0, 0, 10, 16000, 320⟩

/-- The processor of `cfgC3` after one loud frame (now Speaking). -/
def runC3 : VadProcessor :=
  (processFrame (vadNew cfgC3) (List.replicate 320 (0 : ℚ)) 1).2

/-- Config with sample_rate 5 and 17-sample frames; the generous ms
limits keep 19 consecutive loud frames inside one Speaking run. -/
def cfgC4 : VadConfig := ⟨1, 0, 1000000, 1000000, 0, 0, 0, 5, 17⟩

/-- The processor of `cfgC4` after 19 loud frames: Speaking with
19 × 17 = 323 buffered samples. -/
def runC4 : VadProcessor :=
  runVadOps (vadNew cfgC4) (List.replicate 19 (VadOp.frame (List.replicate 17 (0 : ℚ)) 1))

/-- The buffer invariant of claim C10: the segment buffer is non-empty
only in Speaking and the pending buffer only in PendingSpeech. -/
def BuffersInv (p : VadProcessor) : Prop :=
  (p.state ≠ VadState.speaking → p.segment_samples = []) ∧
  (p.state ≠ VadState.pendingSpeech → p.pending_samples = [])

/-- Default-like config with immediate speech start. -/
def cfgC10 : VadConfig := ⟨1, 0, 700, 30000, 500, 0, 0, 16000, 320⟩


/-! ## Lemmas and claim theorems -/

/-! ### Lemmas about replacement -/

theorem listStartsWith_iff (p s : List Char) : listStartsWith p s = true ↔ p <+: s := by
  induction p generalizing s with
  | nil => simp [listStartsWith]
  | cons a as ih =>
    cases s with
    | nil => simp [listStartsWith]
    | cons b bs =>
      simp [listStartsWith, ih, List.cons_prefix_cons]

theorem replaceGo_of_not_infix (p r : List Char) :
    ∀ (n : Nat) (s : List Char), ¬ p <:+: s → replaceGo p r n s = s := by
  intro n
  induction n with
  | zero => intro s _; rfl
  | succ n ih =>
    intro s hs
    cases s with
    | nil => rfl
    | cons c cs =>
      have hpre : ¬ listStartsWith p (c :: cs) = true := by
        intro h
        exact hs ((listStartsWith_iff p (c :: cs)).mp h).isInfix
      have htail : ¬ p <:+: cs := by
        intro h
        rcases h with ⟨u, v, huv⟩
        exact hs ⟨c :: u, v, by simp [huv]⟩
      simp only [replaceGo, if_neg hpre]
      rw [ih cs htail]

theorem rustReplace_of_not_infix (s p r : String) (hp : p.data ≠ [])
    (h : ¬ p.data <:+: s.data) : rustReplace s p r = s := by
  unfold rustReplace
  rw [if_neg hp, replaceGo_of_not_infix p.data r.data s.data.length s.data h]

theorem applyDictionary_of_no_match (s : String) (entries : List DictionaryEntry)
    (h : ∀ e ∈ entries, e.enabled = true →
      e.pattern.data ≠ [] ∧ ¬ e.pattern.data <:+: s.data) :
    applyDictionary s entries = s := by
  induction entries with
  | nil => rfl
  | cons e es ih =>
    have step : (if e.enabled then rustReplace s e.pattern e.replacement else s) = s := by
      by_cases he : e.enabled
      · obtain ⟨h1, h2⟩ := h e (by simp) he
        simp [he, rustReplace_of_not_infix s e.pattern e.replacement h1 h2]
      · simp [he]
    show List.foldl _ _ (e :: es) = s
    simp only [List.foldl_cons, step]
    exact ih (fun e' he' => h e' (by simp [he']))

theorem applyDictionary_cons (s : String) (e : DictionaryEntry) (es : List DictionaryEntry) :
    applyDictionary s (e :: es) =
      applyDictionary (if e.enabled then rustReplace s e.pattern e.replacement else s) es :=
  rfl

theorem applyDictionary_filter (s : String) (entries : List DictionaryEntry) :
    applyDictionary s entries = applyDictionary s (entries.filter (fun e => e.enabled)) := by
  induction entries generalizing s with
  | nil => rfl
  | cons e es ih =>
    rw [applyDictionary_cons]
    by_cases he : e.enabled
    · have hf : (e :: es).filter (fun x => x.enabled) = e :: es.filter (fun x => x.enabled) := by
        simp [he]
      rw [hf, applyDictionary_cons]
      simp only [he, if_true]
      exact ih _
    · have hf : (e :: es).filter (fun x => x.enabled) = es.filter (fun x => x.enabled) := by
        simp [he]
      rw [hf]
      simp only [he, if_false]
      exact ih s

/-- C5: dictionary substitution is chained — entries are applied
sequentially on the working string, in delivered order, disabled entries
are skipped (filtering them away changes nothing), and on the S5 sample
{ABC→XYZ, prio 10} then {XYZ→123, prio 5} the input "ABC test"
post-processes to "123 test" because the first entry's output feeds the
second. -/
theorem claim_C5_dictionary_chaining :
    (∀ (s : String) (entries : List DictionaryEntry),
      applyDictionary s entries = applyDictionary s (entries.filter (fun e => e.enabled))) ∧
    process "ABC test" [entryABC, entryXYZ] = "123 test" := by
  constructor
  · exact applyDictionary_filter
  · decide

/-- C6 fails as stated: with the non-overlapping single-entry dictionary
{"ab" → "c  d"}, `post_process("ab") = "c  d"`, but post-processing again
normalizes the double space away, giving "c d" ≠ "c  d". -/
theorem claim_C6_counterexample :
    process (process "ab" [entryAB]) [entryAB] ≠ process "ab" [entryAB] := by
  decide

/-- C6 (amended): `post_process` is idempotent on input `x` and dictionary
`D` provided the once-processed output is a fixed point of `normalize` and
no enabled entry's (non-empty) pattern occurs in it — the conditions the
phrase "pairwise non-overlapping" needs to also cover replacements that
normalization rewrites. -/
theorem claim_C6_idempotent (x : String) (D : List DictionaryEntry)
    (h1 : normalize (process x D) = process x D)
    (h2 : ∀ e ∈ D, e.enabled = true →
      e.pattern.data ≠ [] ∧ ¬ e.pattern.data <:+: (process x D).data) :
    process (process x D) D = process x D := by
  show applyDictionary (normalize (process x D)) D = process x D
  rw [h1]
  exact applyDictionary_of_no_match (process x D) D h2

/-- Witness for the amended C6 at a concrete input. -/
theorem claim_C6_idempotent_witness :
    process (process "xy" [entryAB]) [entryAB] = process "xy" [entryAB] :=
  claim_C6_idempotent "xy" [entryAB] (by decide) (by decide)

theorem jqLookup_modify (jobs : JobMap) (id : String) (f : JobEntry → JobEntry) :
    jqLookup (jqModify jobs id f) id = (jqLookup jobs id).map f := by
  induction jobs with
  | nil => rfl
  | cons kv rest ih =>
    obtain ⟨k, v⟩ := kv
    by_cases hk : k = id
    · subst hk
      have h2 : jqModify ((k, v) :: rest) k f = (k, f v) :: jqModify rest k f := by
        simp [jqModify]
      rw [h2]
      have h3 : jqLookup ((k, f v) :: jqModify rest k f) k = some (f v) := by
        simp [jqLookup]
      have h4 : jqLookup ((k, v) :: rest) k = some v := by
        simp [jqLookup]
      rw [h3, h4]
      rfl
    · simp only [jqModify, List.map_cons, if_neg hk]
      simpa [jqLookup, hk] using ih

/-- C1 fails as stated: cancelling the queued job "j" returns true and its
status is canceled, but a subsequent `mark_done` overwrites the status to
`Done` — `mark_running`/`mark_done`/`mark_failed` have no terminal-status
guard, so the canceled status is not left in place. -/
theorem claim_C1_counterexample :
    (jqCancel jobsC1 "j").1 = true ∧
    (jqLookup (jqCancel jobsC1 "j").2 "j").map (fun e => e.info.status) =
      some JobStatus.canceled ∧
    (jqLookup (jqMarkDone (jqCancel jobsC1 "j").2 "j") "j").map (fun e => e.info.status) =
      some JobStatus.done := by
  decide

/-- C1 (amended): after `cancel(job_id)` returns true the job's status is
canceled, and `cancel` itself never disturbs a terminal job (it returns
false and leaves the map unchanged); finality against `mark_running` /
`mark_done` / `mark_failed` is not enforced by the queue — those overwrite
the status of any existing job unconditionally. -/
theorem claim_C1_cancel_terminal (jobs : JobMap) (id : String) :
    (∀ e, jqLookup jobs id = some e → e.info.status.isTerminal = true →
      jqCancel jobs id = (false, jobs)) ∧
    (∀ b jobs2, jqCancel jobs id = (b, jobs2) → b = true →
      ∃ e, jqLookup jobs2 id = some e ∧ e.info.status = JobStatus.canceled) := by
  constructor
  · intro e he hterm
    have hcond : ¬ (e.info.status = JobStatus.queued ∨ e.info.status = JobStatus.running) := by
      cases h : e.info.status <;> simp_all [JobStatus.isTerminal]
    simp [jqCancel, he, hcond]
  · intro b jobs2 hc hb
    subst hb
    unfold jqCancel at hc
    cases hl : jqLookup jobs id with
    | none => rw [hl] at hc; simp at hc
    | some e =>
      rw [hl] at hc
      by_cases hcond : e.info.status = JobStatus.queued ∨ e.info.status = JobStatus.running
      · simp only [hcond, if_true] at hc
        have hj : jobs2 = jqModify jobs id (fun e =>
            { e with info := { e.info with status := JobStatus.canceled },
                     cancel_tx := false, handle := false }) := by
          exact (congrArg Prod.snd hc).symm
        subst hj
        rw [jqLookup_modify, hl]
        exact ⟨_, rfl, rfl⟩
      · simp only [hcond, if_false] at hc
        simp at hc

/-- Witness: concrete uses of both halves of the amended C1 theorem. -/
theorem claim_C1_cancel_terminal_witness :
    jqCancel jobsC1done "j" = (false, jobsC1done) ∧
    (∃ e, jqLookup (jqCancel jobsC1 "j").2 "j" = some e ∧
      e.info.status = JobStatus.canceled) :=
  ⟨(claim_C1_cancel_terminal jobsC1done "j").1 doneEntry (by decide) (by decide),
   (claim_C1_cancel_terminal jobsC1 "j").2 true (jqCancel jobsC1 "j").2
     (by decide) rfl⟩

/-- C8 fails as stated: a transition stamps `updated_at` with the
caller-supplied `now`, so calling `toggle_recording` with a `now` equal to
the current `updated_at` (exactly what the repository's unit tests do)
succeeds without strictly increasing `updated_at`. -/
theorem claim_C8_counterexample :
    toggleRecording (some sessionC8) "2025-01-15T10:30:00Z" =
      Except.ok (⟨"s1", "idle", SessionState.recording⟩, some sessionC8same) ∧
    ¬ sessionC8.updated_at < sessionC8same.updated_at := by
  constructor
  · rfl
  · show ¬ ("2025-01-15T10:30:00Z" : String) < "2025-01-15T10:30:00Z"
    exact lt_irrefl _

/-- C8 (amended): every successful transition of the six mutators sets
`updated_at` to the supplied `now`; `updated_at` therefore strictly
increases exactly when the caller supplies a `now` strictly later than the
stored `updated_at` (string order on the RFC-3339 timestamps). -/
theorem claim_C8_updated_at (op : SessionOp) (s : Session) (now : String)
    (t : StateTransition) (act2 : SessionManager)
    (h : applySessionOp op (some s) now = Except.ok (t, act2)) :
    ∃ s2, act2 = some s2 ∧ s2.updated_at = now ∧
      (s.updated_at < now → s.updated_at < s2.updated_at) := by
  cases op <;>
    simp only [applySessionOp, toggleRecording, pauseRecording, onTranscriptDone,
      onRewriteDone, onDeliverDone, recoverFromError] at h <;>
    split at h <;>
    (try split at h) <;>
    first
      | (cases h
         exact ⟨_, rfl, rfl, fun hlt => hlt⟩)
      | (cases h)

/-- Witness for the amended C8: toggling the sample session with a later
timestamp lands on that timestamp. -/
theorem claim_C8_updated_at_witness :
    ∃ s2, (some sessionC8later : SessionManager) = some s2 ∧
      s2.updated_at = "2025-01-15T10:30:01Z" ∧
      (sessionC8.updated_at < "2025-01-15T10:30:01Z" →
        sessionC8.updated_at < s2.updated_at) :=
  claim_C8_updated_at SessionOp.toggle sessionC8 "2025-01-15T10:30:01Z"
    ⟨"s1", "idle", SessionState.recording⟩ (some sessionC8later) rfl

/-! ### Claim C9 -/

/-- C9: the paste decision follows exactly the specified precedence — no
active-app id → FallbackClipboard; allow-list empty or id absent →
FallbackClipboard; allow-listed with paste_confirm →
NeedsConfirmation(id, text); allow-listed without paste_confirm →
Pasted. -/
theorem claim_C9_paste_decision (text : String) (allowlist : List String) (confirm : Bool) :
    (∃ r, pasteIfAllowlisted none text allowlist confirm = PasteResult.fallbackClipboard r) ∧
    (∀ bid, allowlist = [] ∨ bid ∉ allowlist →
      ∃ r, pasteIfAllowlisted (some bid) text allowlist confirm =
        PasteResult.fallbackClipboard r) ∧
    (∀ bid, bid ∈ allowlist → confirm = true →
      pasteIfAllowlisted (some bid) text allowlist confirm =
        PasteResult.needsConfirmation bid text) ∧
    (∀ bid, bid ∈ allowlist → confirm = false →
      pasteIfAllowlisted (some bid) text allowlist confirm = PasteResult.pasted bid) := by
  refine ⟨⟨_, rfl⟩, ?_, ?_, ?_⟩
  · intro bid hb
    have hcond : (allowlist.isEmpty || !(allowlist.any (fun a => a == bid))) = true := by
      rcases hb with hb | hb
      · subst hb; rfl
      · have h2 : allowlist.any (fun a => a == bid) = false := by
          rw [Bool.eq_false_iff]
          intro hany
          rcases List.any_eq_true.mp hany with ⟨x, hx, hxe⟩
          exact hb ((eq_of_beq hxe) ▸ hx)
        simp [h2]
    refine ⟨bid ++ " はallowlistに含まれていません", ?_⟩
    simp [pasteIfAllowlisted, hcond]
  · intro bid hb hc
    have hcond : (allowlist.isEmpty || !(allowlist.any (fun a => a == bid))) = false := by
      have h1 : allowlist.isEmpty = false := by
        cases allowlist with
        | nil => cases hb
        | cons a as => rfl
      have h2 : allowlist.any (fun a => a == bid) = true := by
        rw [List.any_eq_true]
        exact ⟨bid, hb, by simp⟩
      simp [h1, h2]
    simp [pasteIfAllowlisted, hcond, hc]
  · intro bid hb hc
    have hcond : (allowlist.isEmpty || !(allowlist.any (fun a => a == bid))) = false := by
      have h1 : allowlist.isEmpty = false := by
        cases allowlist with
        | nil => cases hb
        | cons a as => rfl
      have h2 : allowlist.any (fun a => a == bid) = true := by
        rw [List.any_eq_true]
        exact ⟨bid, hb, by simp⟩
      simp [h1, h2]
    simp [pasteIfAllowlisted, hcond, hc]

/-- Witness: a concrete allow-listed app with paste_confirm on yields
NeedsConfirmation carrying the app id and the text. -/
theorem claim_C9_paste_decision_witness :
    pasteIfAllowlisted (some "com.apple.Terminal") "hello" ["com.apple.Terminal"] true =
      PasteResult.needsConfirmation "com.apple.Terminal" "hello" :=
  (claim_C9_paste_decision "hello" ["com.apple.Terminal"] true).2.2.1
    "com.apple.Terminal" (by decide) rfl

theorem length_insertByDesc (r : SessionRow) (l : List SessionRow) :
    (insertByDesc r l).length = l.length + 1 := by
  induction l with
  | nil => rfl
  | cons x xs ih =>
    simp only [insertByDesc]
    split
    · simp
    · simp [ih]

theorem length_sortByCreatedDesc (l : List SessionRow) :
    (sortByCreatedDesc l).length = l.length := by
  induction l with
  | nil => rfl
  | cons x xs ih => simp [sortByCreatedDesc, length_insertByDesc, ih]

/-- C7 fails as stated at `limit = 0`: with one stored session the page
holds 0 items and a further row clearly exists beyond them, yet
`next_cursor` is `None`, because the code takes it from the last of the
(empty) kept items. -/
theorem claim_C7_counterexample :
    (listHistory [rowS1] [] 0 none).next_cursor = none ∧
    (listHistory [rowS1] [] 0 none).items.length = 0 ∧
    0 < (cursorFiltered [rowS1] none).length := by
  refine ⟨rfl, rfl, ?_⟩
  decide

/-- C7 (amended): every history page satisfies `items.length ≤ limit`, and
for `limit ≥ 1` the `next_cursor` is present iff a further row exists
beyond the `limit` returned items under the same cursor filter; at
`limit = 0` the cursor is always absent. -/
theorem claim_C7_history_page (sessions : List SessionRow) (segments : List SegmentRow)
    (limit : Nat) (cursor : Option String) :
    (listHistory sessions segments limit cursor).items.length ≤ limit ∧
    (1 ≤ limit →
      ((listHistory sessions segments limit cursor).next_cursor.isSome = true ↔
        limit < (cursorFiltered sessions cursor).length)) := by
  have hrows : ((sortByCreatedDesc (cursorFiltered sessions cursor)).take (limit + 1)).length
      = min (limit + 1) (cursorFiltered sessions cursor).length := by
    rw [List.length_take, length_sortByCreatedDesc]
  constructor
  · show (((sortByCreatedDesc (cursorFiltered sessions cursor)).take (limit + 1)).map _
        |>.take limit).length ≤ limit
    rw [List.length_take]
    exact min_le_left _ _
  · intro hlim
    show (if decide (limit < _) = true then _ else none).isSome = true ↔ _
    rw [List.length_map, hrows]
    by_cases hlt : limit < (cursorFiltered sessions cursor).length
    · have hmin : limit < min (limit + 1) (cursorFiltered sessions cursor).length :=
        lt_min (Nat.lt_succ_self limit) hlt
      rw [if_pos (by simpa using hmin)]
      have hitems : (((sortByCreatedDesc (cursorFiltered sessions cursor)).take (limit + 1)).map
          (fun s => SessionSummary.mk s.session_id s.state (parseMode s.mode) s.created_at
            s.updated_at (segCount segments s.session_id)) |>.take limit).length = limit := by
        rw [List.length_take, List.length_map, hrows]
        exact min_eq_left (le_of_lt hmin)
      have hne : (((sortByCreatedDesc (cursorFiltered sessions cursor)).take (limit + 1)).map
          (fun s => SessionSummary.mk s.session_id s.state (parseMode s.mode) s.created_at
            s.updated_at (segCount segments s.session_id)) |>.take limit) ≠ [] := by
        apply List.ne_nil_of_length_pos
        rw [hitems]
        exact hlim
      have hsome := List.getLast?_isSome.mpr hne
      obtain ⟨x, hx⟩ := Option.isSome_iff_exists.mp hsome
      rw [hx]
      simp [hlt]
    · have hmin : ¬ limit < min (limit + 1) (cursorFiltered sessions cursor).length := by
        intro hc
        exact hlt (lt_of_lt_of_le hc (min_le_right _ _))
      rw [if_neg (by simpa using hmin)]
      simp [hlt]

/-- Witness: with two stored rows and `limit = 1` the amended C7 yields a
present next_cursor. -/
theorem claim_C7_history_page_witness :
    (listHistory [rowS1, rowS2] [] 1 none).next_cursor.isSome = true :=
  ((claim_C7_history_page [rowS1, rowS2] [] 1 none).2 (by decide)).mpr (by decide)

/-- The state after `finalize_segment`: buffers and counters cleared,
Cooldown iff `min_gap_frames > 0`. -/
theorem finalizeSegment_snd (p : VadProcessor) :
    (finalizeSegment p).2 = { p with
      segment_samples := [], segment_started_at := none, silence_frame_count := 0,
      segment_frame_count := 0,
      state := if 0 < p.min_gap_frames then VadState.cooldown else VadState.silence,
      cooldown_frame_count := if 0 < p.min_gap_frames then 0 else p.cooldown_frame_count } := by
  unfold finalizeSegment
  dsimp only
  split_ifs <;> rfl

/-- `finalize_segment` emits exactly one event: a discard or a ready
segment. -/
theorem finalizeSegment_fst (p : VadProcessor) :
    (∃ d, (finalizeSegment p).1 = [VadEvent.segmentDiscarded d]) ∨
    (∃ seg, (finalizeSegment p).1 = [VadEvent.segmentReady seg]) := by
  unfold finalizeSegment
  dsimp only
  split_ifs
  all_goals first
    | (exact Or.inl ⟨_, rfl⟩)
    | (exact Or.inr ⟨_, rfl⟩)

/-- C2 fails as stated: with `min_speech_ms = 10` (> 0) and 20 ms frames a
loud frame in Silence jumps straight to Speaking and emits `SpeechStart`,
because the code tests `min_speech_frames == 0` and ⌊10 / 20⌋ = 0, not
`min_speech_ms == 0`. -/
theorem claim_C2_counterexample :
    cfgC2.min_speech_ms ≠ 0 ∧
    (processFrame (vadNew cfgC2) (List.replicate 320 (0 : ℚ)) 1).1 = [VadEvent.speechStart] ∧
    (processFrame (vadNew cfgC2) (List.replicate 320 (0 : ℚ)) 1).2.state = VadState.speaking := by
  refine ⟨by decide, by decide, by decide⟩

/-- C2 (amended): in Silence with `rms ≥ speech_start_threshold` the
detector moves directly to Speaking and emits `SpeechStart` on that frame
iff `min_speech_frames = 0` (that is, iff `min_speech_ms` is less than one
frame duration — in particular whenever `min_speech_ms = 0`), and
otherwise moves to PendingSpeech starting the pending buffer with this
frame and emits nothing. -/
theorem claim_C2_silence_arm (p : VadProcessor) (frame : List ℚ) (rms : ℚ)
    (cfg : VadConfig)
    (hs : p.state = VadState.silence)
    (hr : p.config.speech_start_threshold ≤ rms) :
    (p.min_speech_frames = 0 →
      processFrame p frame rms =
        ([VadEvent.speechStart],
         { p with state := VadState.speaking, segment_samples := frame,
                  segment_started_at := some (), silence_frame_count := 0,
                  segment_frame_count := 1 })) ∧
    (p.min_speech_frames ≠ 0 →
      processFrame p frame rms =
        ([], { p with state := VadState.pendingSpeech, pending_samples := frame,
                      pending_frame_count := 1 })) ∧
    (vadNew cfg).min_speech_frames =
      cfg.min_speech_ms / max (f32FrameDurationMs cfg.frame_size cfg.sample_rate) 1 := by
  refine ⟨?_, ?_, rfl⟩ <;> intro h0 <;> simp [processFrame, hs, hr, h0]

/-- Witness for the amended C2: a loud frame under `min_speech_ms = 100`
opens PendingSpeech with the frame buffered. -/
theorem claim_C2_silence_arm_witness :
    processFrame (vadNew cfgC2w) (List.replicate 320 (0 : ℚ)) 1 =
      ([], { (vadNew cfgC2w) with state := VadState.pendingSpeech,
                                  pending_samples := List.replicate 320 (0 : ℚ),
                                  pending_frame_count := 1 }) :=
  (claim_C2_silence_arm (vadNew cfgC2w) (List.replicate 320 (0 : ℚ)) 1 cfgC2w rfl
    (by decide)).2.1 (by decide)

/-- A force cut prepended to a finalization: exactly one force-cut event,
followed by the single finalization event, ending in Cooldown unless
`min_gap_frames = 0`. -/
theorem forceCutOutcome (q : VadProcessor) :
    (VadEvent.segmentForceCut :: (finalizeSegment q).1).countP isForceCut = 1 ∧
    ((∃ d, VadEvent.segmentForceCut :: (finalizeSegment q).1 =
        [VadEvent.segmentForceCut, VadEvent.segmentDiscarded d]) ∨
     (∃ seg, VadEvent.segmentForceCut :: (finalizeSegment q).1 =
        [VadEvent.segmentForceCut, VadEvent.segmentReady seg])) ∧
    (finalizeSegment q).2.state =
      (if q.min_gap_frames = 0 then VadState.silence else VadState.cooldown) := by
  refine ⟨?_, ?_, ?_⟩
  · rcases finalizeSegment_fst q with ⟨d, hd⟩ | ⟨sg, hsg⟩
    · rw [hd]; rfl
    · rw [hsg]; rfl
  · rcases finalizeSegment_fst q with ⟨d, hd⟩ | ⟨sg, hsg⟩
    · exact Or.inl ⟨d, by rw [hd]⟩
    · exact Or.inr ⟨sg, by rw [hsg]⟩
  · rw [finalizeSegment_snd]
    by_cases hg : q.min_gap_frames = 0
    · simp [hg]
    · simp [hg, Nat.pos_of_ne_zero hg]

/-- C3 (amended): when a Speaking frame brings the segment frame count up
to `max_frames`, exactly one `SegmentForceCut` is emitted, immediately
followed by the one finalization event of that segment, and the detector
then sits in Silence exactly when `min_gap_frames = 0` (that is, when
`min_gap_ms` is below one frame duration — not only when it is 0) and in
Cooldown otherwise. -/
theorem claim_C3_force_cut (p : VadProcessor) (frame : List ℚ) (rms : ℚ)
    (hs : p.state = VadState.speaking)
    (hmax : p.max_frames ≤ p.segment_frame_count + 1) :
    ((processFrame p frame rms).1.countP isForceCut = 1) ∧
    ((∃ d, (processFrame p frame rms).1 =
        [VadEvent.segmentForceCut, VadEvent.segmentDiscarded d]) ∨
     (∃ seg, (processFrame p frame rms).1 =
        [VadEvent.segmentForceCut, VadEvent.segmentReady seg])) ∧
    ((processFrame p frame rms).2.state =
      if p.min_gap_frames = 0 then VadState.silence else VadState.cooldown) := by
  unfold processFrame
  rw [hs]
  dsimp only
  by_cases h1 : rms < p.config.speech_end_threshold
  · rw [if_pos h1]
    dsimp only
    rw [if_pos hmax]
    exact forceCutOutcome _
  · rw [if_neg h1]
    dsimp only
    rw [if_pos hmax]
    exact forceCutOutcome _

set_option maxRecDepth 100000 in
/-- C3 fails as stated: with `min_gap_ms = 10 ≠ 0` the force cut is
emitted exactly once but the detector enters Silence, not Cooldown,
because ⌊10 / 20⌋ = 0 frames of cooldown are required. -/
theorem claim_C3_counterexample :
    cfgC3.min_gap_ms ≠ 0 ∧
    (processFrame runC3 (List.replicate 320 (0 : ℚ)) 1).1.countP isForceCut = 1 ∧
    (processFrame runC3 (List.replicate 320 (0 : ℚ)) 1).2.state = VadState.silence := by
  refine ⟨by decide, by decide, by decide⟩

set_option maxRecDepth 100000 in
/-- Witness for the amended C3: the second loud frame of `cfgC3` reaches
`max_frames` and triggers exactly one force cut. -/
theorem claim_C3_force_cut_witness :
    (processFrame runC3 (List.replicate 320 (0 : ℚ)) 1).1.countP isForceCut = 1 :=
  (claim_C3_force_cut runC3 (List.replicate 320 (0 : ℚ)) 1 (by decide) (by decide)).1

/-- C4 (amended): a finalized segment holding n samples at rate sr
reports `duration_ms` equal to the f64 evaluation of `(n / sr) * 1000`
truncated (which can fall one below ⌊n·1000/sr⌋); if that duration is
below `min_segment_ms` the only event is `SegmentDiscarded` with that
duration and the buffers are reset, otherwise a `SegmentReady` carrying
exactly those samples and that duration is emitted. -/
theorem claim_C4_finalize (p : VadProcessor) (hsr : 0 < p.config.sample_rate) :
    (f64DurationMs p.segment_samples.length p.config.sample_rate < p.config.min_segment_ms →
      (finalizeSegment p).1 =
        [VadEvent.segmentDiscarded
          (f64DurationMs p.segment_samples.length p.config.sample_rate)] ∧
      (finalizeSegment p).2.segment_samples = [] ∧
      (finalizeSegment p).2.segment_frame_count = 0 ∧
      (finalizeSegment p).2.silence_frame_count = 0) ∧
    (¬ f64DurationMs p.segment_samples.length p.config.sample_rate < p.config.min_segment_ms →
      (finalizeSegment p).1 =
        [VadEvent.segmentReady
          ⟨f64DurationMs p.segment_samples.length p.config.sample_rate,
           p.config.sample_rate, 1, some p.segment_samples, p.language, p.hints⟩] ∧
      (finalizeSegment p).2.segment_samples = []) := by
  unfold finalizeSegment
  dsimp only
  rw [if_pos hsr]
  constructor
  · intro hlt
    rw [if_pos hlt]
    exact ⟨rfl, rfl, rfl, rfl⟩
  · intro hge
    rw [if_neg hge]
    exact ⟨rfl, rfl⟩

set_option maxRecDepth 400000 in
/-- C4 fails as stated: flushing 323 samples at rate 5 reports
`duration_ms = 64599`, while ⌊323·1000/5⌋ = 64600 — the f64 evaluation of
`(323/5)*1000` rounds below the exact value before truncation. -/
theorem claim_C4_counterexample :
    runC4.segment_samples.length = 323 ∧
    runC4.config.sample_rate = 5 ∧
    (vadFlush runC4).1 =
      [VadEvent.segmentReady ⟨64599, 5, 1, some (List.replicate 323 (0 : ℚ)), none, []⟩] ∧
    323 * 1000 / 5 = 64600 := by
  refine ⟨by decide, by decide, by decide, by decide⟩

set_option maxRecDepth 400000 in
/-- Witness for the amended C4 at the 323-sample flush state. -/
theorem claim_C4_finalize_witness :
    (finalizeSegment runC4).1 =
      [VadEvent.segmentReady ⟨64599, 5, 1, some runC4.segment_samples, runC4.language,
        runC4.hints⟩] ∧
    (finalizeSegment runC4).2.segment_samples = [] := by
  have h := (claim_C4_finalize runC4 (by decide)).2 (by decide)
  exact h

/-- `finalize_segment` restores the buffer invariant whenever the pending
buffer is empty. -/
theorem buffersInv_finalize (p : VadProcessor) (hp : p.pending_samples = []) :
    BuffersInv (finalizeSegment p).2 := by
  rw [finalizeSegment_snd]
  exact ⟨fun _ => rfl, fun _ => hp⟩

/-- `process_frame` preserves the buffer invariant. -/
theorem buffersInv_processFrame (p : VadProcessor) (f : List ℚ) (r : ℚ)
    (h : BuffersInv p) : BuffersInv (processFrame p f r).2 := by
  obtain ⟨h1, h2⟩ := h
  unfold processFrame
  cases hst : p.state with
  | silence =>
    dsimp only
    split_ifs with ha hb
    · exact ⟨fun hc => absurd rfl hc, fun _ => h2 (by simp [hst])⟩
    · exact ⟨fun _ => h1 (by simp [hst]), fun hc => absurd rfl hc⟩
    · exact ⟨fun _ => h1 (by simp [hst]), fun _ => h2 (by simp [hst])⟩
  | pendingSpeech =>
    dsimp only
    split_ifs with ha hb
    · exact ⟨fun _ => h1 (by simp [hst]), fun _ => rfl⟩
    · exact ⟨fun hc => absurd rfl hc, fun _ => rfl⟩
    · exact ⟨fun _ => h1 (by simp [hst]), fun hc => absurd rfl hc⟩
  | speaking =>
    dsimp only
    split_ifs with ha hb hc
    · exact buffersInv_finalize _ (h2 (by simp [hst]))
    · exact buffersInv_finalize _ (h2 (by simp [hst]))
    · exact ⟨fun hd => absurd rfl hd, fun _ => h2 (by simp [hst])⟩
    · exact buffersInv_finalize _ (h2 (by simp [hst]))
    · exact buffersInv_finalize _ (h2 (by simp [hst]))
    · exact ⟨fun hd => absurd rfl hd, fun _ => h2 (by simp [hst])⟩
  | cooldown =>
    dsimp only
    split_ifs with ha
    · exact ⟨fun _ => h1 (by simp [hst]), fun _ => h2 (by simp [hst])⟩
    · exact ⟨fun _ => h1 (by simp [hst]), fun _ => h2 (by simp [hst])⟩

/-- `flush` preserves the buffer invariant. -/
theorem buffersInv_flush (p : VadProcessor) (h : BuffersInv p) :
    BuffersInv (vadFlush p).2 := by
  obtain ⟨h1, h2⟩ := h
  unfold vadFlush
  cases hst : p.state with
  | silence => exact ⟨h1, h2⟩
  | cooldown => exact ⟨h1, h2⟩
  | speaking =>
    dsimp only
    split_ifs with ha
    · exact ⟨h1, h2⟩
    · exact buffersInv_finalize _ (h2 (by simp [hst]))
  | pendingSpeech =>
    dsimp only
    split_ifs with ha
    · exact ⟨h1, h2⟩
    · exact buffersInv_finalize _ rfl

/-- Any sequence of operations preserves the buffer invariant. -/
theorem buffersInv_runVadOps (p : VadProcessor) (h : BuffersInv p) (ops : List VadOp) :
    BuffersInv (runVadOps p ops) := by
  induction ops generalizing p with
  | nil => exact h
  | cons op ops ih =>
    apply ih
    cases op with
    | frame f r => exact buffersInv_processFrame p f r h
    | flush => exact buffersInv_flush p h
    | reset => exact ⟨fun _ => rfl, fun _ => rfl⟩

/-- `flush` in Silence or Cooldown returns no events and changes
nothing. -/
theorem vadFlush_inactive (p : VadProcessor)
    (h : p.state = VadState.silence ∨ p.state = VadState.cooldown) :
    vadFlush p = ([], p) := by
  rcases h with h | h <;> simp [vadFlush, h]

/-- C10: in every state reachable from `new(config)` by `process_frame`,
`flush` and `reset`, the segment buffer is non-empty only while Speaking
and the pending buffer only while PendingSpeech; consequently `flush` in
Silence or Cooldown returns no events and changes nothing. -/
theorem claim_C10_buffer_invariant (cfg : VadConfig) (ops : List VadOp) :
    ((runVadOps (vadNew cfg) ops).segment_samples ≠ [] →
      (runVadOps (vadNew cfg) ops).state = VadState.speaking) ∧
    ((runVadOps (vadNew cfg) ops).pending_samples ≠ [] →
      (runVadOps (vadNew cfg) ops).state = VadState.pendingSpeech) ∧
    ((runVadOps (vadNew cfg) ops).state = VadState.silence ∨
        (runVadOps (vadNew cfg) ops).state = VadState.cooldown →
      vadFlush (runVadOps (vadNew cfg) ops) = ([], runVadOps (vadNew cfg) ops)) := by
  have hinv := buffersInv_runVadOps (vadNew cfg) ⟨fun _ => rfl, fun _ => rfl⟩ ops
  refine ⟨?_, ?_, vadFlush_inactive _⟩
  · intro hne
    by_cases hq : (runVadOps (vadNew cfg) ops).state = VadState.speaking
    · exact hq
    · exact absurd (hinv.1 hq) hne
  · intro hne
    by_cases hq : (runVadOps (vadNew cfg) ops).state = VadState.pendingSpeech
    · exact hq
    · exact absurd (hinv.2 hq) hne

/-- Witness for C10: after one loud frame the state is Speaking (its
segment buffer being non-empty), and flushing the fresh processor is a
no-op. -/
theorem claim_C10_buffer_invariant_witness :
    (runVadOps (vadNew cfgC10) [VadOp.frame (List.replicate 320 (0 : ℚ)) 1]).state =
      VadState.speaking ∧
    vadFlush (runVadOps (vadNew cfgC10) []) = ([], runVadOps (vadNew cfgC10) []) :=
  ⟨(claim_C10_buffer_invariant cfgC10 [VadOp.frame (List.replicate 320 (0 : ℚ)) 1]).1
      (by decide),
   (claim_C10_buffer_invariant cfgC10 []).2.2 (by decide)⟩

end VoiceTypeless

